import Mathlib

set_option maxHeartbeats 1000000

/- Shallow embedding of the p2p-clinic repository's room-security and
   replication core: the crypto helpers of src/web/src/store/OrgContext.tsx,
   the rendezvous worker listed in src/TODO.md, and the session manager of
   src/web/src/sync/SyncManager.ts.  Bytes are Nat (values < 256), byte
   strings are List Nat, JS strings are List Char. -/

/- ### Base64: the runtime's btoa / atob on binary strings.
   btoa maps 3 bytes to 4 alphabet characters with '=' padding; atob is its
   inverse on well-formed base64 (padding only in the final quartet), which is
   the only shape the repository ever decodes. -/

def b64chars : List Char :=
  "ABCDEFGHIJKLMNOPQRSTUVWXYZabcdefghijklmnopqrstuvwxyz0123456789+/".toList

/- JS string indexing s[i]; out-of-range reads are never reached by callers. -/
def charAt : List Char → Nat → Char
  | [], _ => 'A'
  | c :: _, 0 => c
  | _ :: rest, n + 1 => charAt rest n

def b64c (n : Nat) : Char := charAt b64chars n

/- JS indexOf for characters that are present. -/
def charIndex (c : Char) : List Char → Nat
  | [] => 0
  | a :: rest => if a = c then 0 else charIndex c rest + 1

def b64d (c : Char) : Nat := charIndex c b64chars

def btoa : List Nat → List Char
  | [] => []
  | [a] => [b64c (a / 4), b64c (a % 4 * 16), '=', '=']
  | [a, b] => [b64c (a / 4), b64c (a % 4 * 16 + b / 16), b64c (b % 16 * 4), '=']
  | a :: b :: c :: rest =>
      b64c (a / 4) :: b64c (a % 4 * 16 + b / 16) :: b64c (b % 16 * 4 + c / 64) ::
        b64c (c % 64) :: btoa rest

def atob : List Char → List Nat
  | w :: x :: y :: z :: rest =>
      if y = '=' then [b64d w * 4 + b64d x / 16]
      else if z = '=' then
        [b64d w * 4 + b64d x / 16, b64d x % 16 * 16 + b64d y / 4]
      else
        (b64d w * 4 + b64d x / 16) :: (b64d x % 16 * 16 + b64d y / 4) ::
          (b64d y % 4 * 64 + b64d z) :: atob rest
  | _ => []

/- JS String.prototype.split with separator ':'. -/
def splitColon : List Char → List (List Char)
  | [] => [[]]
  | c :: rest =>
      if c = ':' then [] :: splitColon rest
      else
        match splitColon rest with
        | [] => [[c]]
        | p :: ps => (c :: p) :: ps

/- ### Password hashing, src/web/src/store/OrgContext.tsx hashPassword /
   verifyPassword.  The PBKDF2-HMAC-SHA256 primitive (crypto.subtle.deriveBits)
   is an external platform function; it is a parameter
   pbkdf2 password salt iterations bits, returning the derived bytes. -/

def PBKDF2_ITERATIONS : Nat := 100000

/- hashPassword with the 16-byte random salt passed in explicitly:
   base64(salt) ++ ":" ++ base64(PBKDF2(pw, salt, 100000, 256 bits)). -/
def hashPassword (pbkdf2 : List Nat → List Nat → Nat → Nat → List Nat)
    (salt pw : List Nat) : List Char :=
  btoa salt ++ ':' :: btoa (pbkdf2 pw salt PBKDF2_ITERATIONS 256)

/- verifyPassword: split the stored hash on ':', recompute with the stored
   salt, compare the base64 encodings.  Falsy (empty or missing) components
   return false, as in the source. -/
def verifyPassword (pbkdf2 : List Nat → List Nat → Nat → Nat → List Nat)
    (pw : List Nat) (storedHash : List Char) : Bool :=
  match splitColon storedHash with
  | saltB64 :: expectedHashB64 :: _ =>
      if saltB64.isEmpty || expectedHashB64.isEmpty then false
      else
        let salt := atob saltB64
        let hashB64 := btoa (pbkdf2 pw salt PBKDF2_ITERATIONS 256)
        hashB64 == expectedHashB64
  | _ => false

/- ### Share codes (identical in OrgContext.tsx and the worker of TODO.md). -/

def shareAlphabet : List Char := "ABCDEFGHJKLMNPQRSTUVWXYZ23456789".toList

/- Uint8Array indexing bytes[i]. -/
def getByte : List Nat → Nat → Nat
  | [], _ => 0
  | b :: _, 0 => b
  | _ :: rest, n + 1 => getByte rest n

/- for i in 0..7: code += chars[bytes[i] % chars.length]; if i === 3 add '-'. -/
def generateShareCode (bytes : List Nat) : List Char :=
  (List.range 8).foldl
    (fun code i =>
      let code2 := code ++ [charAt shareAlphabet (getByte bytes i % shareAlphabet.length)]
      if i = 3 then code2 ++ ['-'] else code2)
    []

/- The character contributed by input byte i. -/
def codeChar (bytes : List Nat) (i : Nat) : Char :=
  charAt shareAlphabet (getByte bytes i % shareAlphabet.length)

/- ### Rendezvous worker, src/TODO.md.  The expiring KV store is a list of
   (key, value, absolute expiry in ms); kvPut interprets expirationTtl in
   seconds from now, and reads are invisible once now reaches the expiry.
   JSON round-tripping of stored records is modelled by storing the record
   values structurally. -/

def SHARE_CODE_TTL : Nat := 300

def PEER_TTL : Nat := 120

def MAX_REQUESTS_PER_IP : Nat := 100

def RATE_LIMIT_WINDOW : Nat := 60

inductive KVValue where
  | invite (roomId : List Char) (createdAt : Nat) (createdBy : List Char)
  | peerRec (peerId : List Char) (sdpOffer : Option (List Char))
      (iceCandidates : Option (List (List Char))) (lastSeen : Nat)
  | counter (n : Nat)

deriving instance DecidableEq for KVValue

abbrev KV : Type := List (List Char × KVValue × Nat)

def kvFind (kv : KV) (key : List Char) : Option (KVValue × Nat) :=
  match kv with
  | [] => none
  | e :: rest => if e.1 = key then some (e.2.1, e.2.2) else kvFind rest key

def kvGet (kv : KV) (now : Nat) (key : List Char) : Option KVValue :=
  match kvFind kv key with
  | some (v, ex) => if now < ex then some v else none
  | none => none

def kvRemove (kv : KV) (key : List Char) : KV :=
  match kv with
  | [] => []
  | e :: rest => if e.1 = key then kvRemove rest key else e :: kvRemove rest key

def kvPut (kv : KV) (now : Nat) (key : List Char) (v : KVValue) (ttl : Nat) : KV :=
  (key, v, now + ttl * 1000) :: kvRemove kv key

def kvDelete (kv : KV) (key : List Char) : KV := kvRemove kv key

/- The string keys used by the worker, as character lists:
   "ratelimit:" + ip, "invite:" + code, "room:" + roomId + ":peer:" + peerId. -/

def rlKey (ip : List Char) : List Char :=
  'r' :: 'a' :: 't' :: 'e' :: 'l' :: 'i' :: 'm' :: 'i' :: 't' :: ':' :: ip

def inviteKey (code : List Char) : List Char :=
  'i' :: 'n' :: 'v' :: 'i' :: 't' :: 'e' :: ':' :: code

def peerKey (roomId peerId : List Char) : List Char :=
  'r' :: 'o' :: 'o' :: 'm' :: ':' ::
    (roomId ++ ':' :: 'p' :: 'e' :: 'e' :: 'r' :: ':' :: peerId)

def isHexDig (c : Char) : Bool :=
  ('0' ≤ c && c ≤ '9') || ('a' ≤ c && c ≤ 'f') || ('A' ≤ c && c ≤ 'F')

/- Consume exactly n hex digits, returning the remainder. -/
def hexRun : Nat → List Char → Option (List Char)
  | 0, rest => some rest
  | _ + 1, [] => none
  | n + 1, c :: rest => if isHexDig c then hexRun n rest else none

/- The /^[a-f0-9]{8}-[a-f0-9]{4}-[a-f0-9]{4}-[a-f0-9]{4}-[a-f0-9]{12}$/i test. -/
def isValidUUID (s : List Char) : Bool :=
  match hexRun 8 s with
  | some ('-' :: r1) =>
    match hexRun 4 r1 with
    | some ('-' :: r2) =>
      match hexRun 4 r2 with
      | some ('-' :: r3) =>
        match hexRun 4 r3 with
        | some ('-' :: r4) =>
          match hexRun 12 r4 with
          | some [] => true
          | _ => false
        | _ => false
      | _ => false
    | _ => false
  | _ => false

/- JSON.parse(data) as ShareCodeData, then .roomId. -/
def inviteRoomId : KVValue → List Char
  | KVValue.invite r _ _ => r
  | _ => []

inductive Req where
  | health
  | createInvite (roomId : List Char)
  | joinInvite (code : List Char)
  | announce (roomId : List Char) (peerId : List Char) (sdpOffer : Option (List Char))
      (iceCandidates : Option (List (List Char)))
  | getPeers (roomId : List Char)
  | unknown

deriving instance DecidableEq for Req

inductive Resp where
  | rateLimited
  | invalidRoom
  | missingPeer
  | notFound
  | healthOk
  | inviteCreated (code : List Char) (expiresIn : Nat)
  | joined (roomId : List Char)
  | announced (expiresIn : Nat)
  | peersList (roomId : List Char) (peers : List KVValue) (count : Nat)

deriving instance DecidableEq for Resp

/- checkRateLimit: read the per-IP counter (0 when absent or expired); at or
   above the cap, report limited without writing; otherwise store count+1 with
   a 60 s TTL. -/
def checkRateLimit (kv : KV) (now : Nat) (ip : List Char) : Bool × KV :=
  let key := rlKey ip
  let count := match kvGet kv now key with
    | some (KVValue.counter n) => n
    | _ => 0
  if MAX_REQUESTS_PER_IP ≤ count then (true, kv)
  else (false, kvPut kv now key (KVValue.counter (count + 1)) RATE_LIMIT_WINDOW)

/- handleCreateInvite: reject a malformed room id, else store the freshly
   generated code (the 8 random bytes are passed in) with a 300 s TTL.  There
   is no collision check; kvPut overwrites any record under the same key. -/
def handleCreateInvite (kv : KV) (now : Nat) (roomId ip : List Char)
    (rnd : List Nat) : Resp × KV :=
  if ¬ isValidUUID roomId then (Resp.invalidRoom, kv)
  else
    let code := generateShareCode rnd
    (Resp.inviteCreated code SHARE_CODE_TTL,
     kvPut kv now (inviteKey code) (KVValue.invite roomId now ip) SHARE_CODE_TTL)

/- handleJoinInvite: read the invite; absent or expired means 404, otherwise
   delete it (one-time use) and return its room id. -/
def handleJoinInvite (kv : KV) (now : Nat) (code : List Char) : Resp × KV :=
  match kvGet kv now (inviteKey code) with
  | none => (Resp.notFound, kv)
  | some v => (Resp.joined (inviteRoomId v), kvDelete kv (inviteKey code))

def handleAnnounce (kv : KV) (now : Nat) (roomId peerId : List Char)
    (sdpOffer : Option (List Char)) (iceCandidates : Option (List (List Char))) :
    Resp × KV :=
  if ¬ isValidUUID roomId then (Resp.invalidRoom, kv)
  else if peerId = [] then (Resp.missingPeer, kv)
  else
    (Resp.announced PEER_TTL,
     kvPut kv now (peerKey roomId peerId)
       (KVValue.peerRec peerId sdpOffer iceCandidates now) PEER_TTL)

def handleGetPeers (kv : KV) (now : Nat) (roomId : List Char) : Resp × KV :=
  if ¬ isValidUUID roomId then (Resp.invalidRoom, kv)
  else
    let pre := peerKey roomId []
    let peers := kv.filterMap (fun e =>
      if pre.isPrefixOf e.1 then
        match kvGet kv now e.1 with
        | some (KVValue.peerRec p s i ls) =>
            if now - ls < PEER_TTL * 1000 then some (KVValue.peerRec p s i ls)
            else none
        | _ => none
      else none)
    (Resp.peersList roomId peers peers.length, kv)

/- The route dispatch inside the worker's fetch (the try block), after the
   rate-limit gate has passed. -/
def fetchRoute (kv : KV) (now : Nat) (ip : List Char) (req : Req)
    (rnd : List Nat) : Resp × KV :=
  match req with
  | Req.health => (Resp.healthOk, kv)
  | Req.createInvite roomId => handleCreateInvite kv now roomId ip rnd
  | Req.joinInvite code => handleJoinInvite kv now (code.map Char.toUpper)
  | Req.announce roomId peerId sdp ice => handleAnnounce kv now roomId peerId sdp ice
  | Req.getPeers roomId => handleGetPeers kv now roomId
  | Req.unknown => (Resp.notFound, kv)

/- The worker's fetch handler: rate limit first (429 short-circuits every
   route), then dispatch. -/
def fetch (kv : KV) (now : Nat) (ip : List Char) (req : Req) (rnd : List Nat) :
    Resp × KV :=
  let rl := checkRateLimit kv now ip
  if rl.1 then (Resp.rateLimited, rl.2)
  else fetchRoute rl.2 now ip req rnd

structure FetchIn where
  now : Nat
  req : Req
  rnd : List Nat

deriving instance DecidableEq for FetchIn

/- A sequence of requests from one client IP, each seeing the store the
   previous one left behind. -/
def runFetch (ip : List Char) : KV → List FetchIn → List Resp × KV
  | kv, [] => ([], kv)
  | kv, r :: rs =>
      let p := fetch kv r.now ip r.req r.rnd
      let q := runFetch ip p.2 rs
      (p.1 :: q.1, q.2)

/- ### Interleaving model of redeem_invite.  handleJoinInvite awaits KV.get
   and then KV.delete as two separate store operations; a redemption task is
   therefore two atomic phases against the shared store. -/

structure JoinTask where
  code : List Char
  fetched : Option (Option KVValue)
  resp : Option Resp

deriving instance DecidableEq for JoinTask

def joinStep (now : Nat) (st : KV × JoinTask) : KV × JoinTask :=
  match st.2.fetched with
  | none => (st.1, { st.2 with fetched := some (kvGet st.1 now (inviteKey st.2.code)) })
  | some none => (st.1, { st.2 with resp := some Resp.notFound })
  | some (some v) =>
      (kvDelete st.1 (inviteKey st.2.code),
       { st.2 with resp := some (Resp.joined (inviteRoomId v)) })

/- Run two concurrent redemption tasks under an explicit schedule: true steps
   the first task, false the second. -/
def runTwo (now : Nat) : KV × JoinTask × JoinTask → List Bool → KV × JoinTask × JoinTask
  | st, [] => st
  | st, b :: bs =>
      if b then
        let r := joinStep now (st.1, st.2.1)
        runTwo now (r.1, r.2, st.2.2) bs
      else
        let r := joinStep now (st.1, st.2.2)
        runTwo now (r.1, st.2.1, r.2) bs

/- ### Session manager, src/web/src/sync/SyncManager.ts.  Peer ids and
   challenges are character lists; the HMAC primitive is a parameter
   hmac challenge authKey.  Document state is opaque; applying a received
   update is recorded as an effect carrying the origin tag passed to
   Y.applyUpdate (the source passes none).  A data channel present in
   dataChannels stands for an open channel. -/

inductive SyncStatus where
  | disconnected
  | connecting
  | syncing
  | error

deriving instance DecidableEq for SyncStatus

structure SyncManager where
  status : SyncStatus
  authKey : Option Nat
  encryptionKey : Option Nat
  ws : Bool
  peerConnections : List (List Char)
  dataChannels : List (List Char)
  authenticatedPeers : List (List Char)
  observers : List (List Char)
  pollTimer : Bool
  announceTimer : Bool
  doc : List Nat

deriving instance DecidableEq for SyncManager

inductive Frame where
  | authChallenge (challenge : List Char)
  | authResponse (challenge : List Char) (response : List Char)
  | authSuccess
  | yjsUpdate (update : List Nat)
  | yjsSyncRequest
  | yjsSyncResponse (update : List Nat)

deriving instance DecidableEq for Frame

def Frame.isCrdt : Frame → Bool
  | Frame.yjsUpdate _ => true
  | Frame.yjsSyncRequest => true
  | Frame.yjsSyncResponse _ => true
  | _ => false

structure Effects where
  sends : List (List Char × Frame)
  applies : List (List Nat × Option (List Char))
  closes : List (List Char)
  connectedEvents : List (List Char)

deriving instance DecidableEq for Effects

def noEffects : Effects := ⟨[], [], [], []⟩

/- Set.add on the authenticatedPeers set. -/
def addPeer (l : List (List Char)) (p : List Char) : List (List Char) :=
  if p ∈ l then l else l ++ [p]

/- stop(): clear both timers, close and drop the relay socket, close every
   peer connection, clear the three collections, set status disconnected.
   The derived keys are not touched by the source. -/
def SyncManager.stop (s : SyncManager) : SyncManager × List SyncStatus :=
  ({ s with
      pollTimer := false
      announceTimer := false
      ws := false
      peerConnections := []
      dataChannels := []
      authenticatedPeers := []
      status := SyncStatus.disconnected },
   [SyncStatus.disconnected])

/- start(): early return unless disconnected; otherwise emit connecting,
   derive the keys (keys = none models a deriveKeys failure, caught and
   turned into the error status), connect the relay, start both timers,
   announce, and emit syncing. -/
def SyncManager.start (s : SyncManager) (keys : Option (Nat × Nat)) :
    SyncManager × List SyncStatus :=
  if s.status ≠ SyncStatus.disconnected then (s, [])
  else
    match keys with
    | some (ak, ek) =>
        ({ s with
            status := SyncStatus.syncing
            authKey := some ak
            encryptionKey := some ek
            ws := true
            pollTimer := true
            announceTimer := true },
         [SyncStatus.connecting, SyncStatus.syncing])
    | none =>
        ({ s with status := SyncStatus.error },
         [SyncStatus.connecting, SyncStatus.error])

def SyncManager.hasEncryptionKey (s : SyncManager) : Bool :=
  s.encryptionKey.isSome

/- startYjsSync: bail out if there is no channel; otherwise send
   yjs-sync-request and subscribe a document observer for this peer. -/
def SyncManager.startYjsSync (s : SyncManager) (peerId : List Char) :
    SyncManager × List (List Char × Frame) :=
  if peerId ∈ s.dataChannels then
    ({ s with observers := s.observers ++ [peerId] }, [(peerId, Frame.yjsSyncRequest)])
  else (s, [])

/- handleDataChannelMessage, the per-frame dispatch of the source. -/
def SyncManager.handleDataChannelMessage (hmac : List Char → Nat → List Char)
    (s : SyncManager) (peerId : List Char) (msg : Frame) : SyncManager × Effects :=
  match msg with
  | Frame.authChallenge c =>
      match s.authKey with
      | some k =>
          if peerId ∈ s.dataChannels then
            (s, { noEffects with sends := [(peerId, Frame.authResponse c (hmac c k))] })
          else (s, noEffects)
      | none => (s, noEffects)
  | Frame.authResponse c r =>
      match s.authKey with
      | some k =>
          if hmac c k = r then
            let s1 := { s with authenticatedPeers := addPeer s.authenticatedPeers peerId }
            let succ : List (List Char × Frame) :=
              if peerId ∈ s1.dataChannels then [(peerId, Frame.authSuccess)] else []
            let y := SyncManager.startYjsSync s1 peerId
            (y.1, { noEffects with sends := succ ++ y.2, connectedEvents := [peerId] })
          else
            (s, { noEffects with
                    closes := if peerId ∈ s.peerConnections then [peerId] else [] })
      | none => (s, noEffects)
  | Frame.authSuccess =>
      let s1 := { s with authenticatedPeers := addPeer s.authenticatedPeers peerId }
      let y := SyncManager.startYjsSync s1 peerId
      (y.1, { noEffects with sends := y.2, connectedEvents := [peerId] })
  | Frame.yjsUpdate u =>
      if peerId ∈ s.authenticatedPeers then
        (s, { noEffects with applies := [(u, none)] })
      else (s, noEffects)
  | Frame.yjsSyncRequest =>
      if peerId ∈ s.authenticatedPeers then
        if peerId ∈ s.dataChannels then
          (s, { noEffects with sends := [(peerId, Frame.yjsSyncResponse s.doc)] })
        else (s, noEffects)
      else (s, noEffects)
  | Frame.yjsSyncResponse u =>
      if peerId ∈ s.authenticatedPeers then
        (s, { noEffects with applies := [(u, none)] })
      else (s, noEffects)

/- The observer installed by startYjsSync for peer q skips updates whose
   origin is q, and otherwise sends to q while q is authenticated with an
   open channel. -/
def SyncManager.observerSends (s : SyncManager) (u : List Nat)
    (origin : Option (List Char)) : List (List Char × Frame) :=
  s.observers.filterMap (fun q =>
    if origin = some q then none
    else if q ∈ s.authenticatedPeers ∧ q ∈ s.dataChannels then
      some (q, Frame.yjsUpdate u)
    else none)

inductive Evt where
  | channelOpen (peerId : List Char) (challenge : List Char)
  | recv (peerId : List Char) (frame : Frame)
  | docUpdate (update : List Nat) (origin : Option (List Char))
  | channelClosed (peerId : List Char)

deriving instance DecidableEq for Evt

/- One step of the manager's event loop: a data channel opening (which runs
   initiateAuth with the freshly generated challenge), an inbound frame, a
   local document update firing every registered observer, or a channel
   closing (handlePeerDisconnected). -/
def SyncManager.stepEvt (hmac : List Char → Nat → List Char) (s : SyncManager)
    (e : Evt) : SyncManager × Effects :=
  match e with
  | Evt.channelOpen p ch =>
      ({ s with dataChannels := addPeer s.dataChannels p },
       { noEffects with sends := [(p, Frame.authChallenge ch)] })
  | Evt.recv p f => SyncManager.handleDataChannelMessage hmac s p f
  | Evt.docUpdate u o => (s, { noEffects with sends := SyncManager.observerSends s u o })
  | Evt.channelClosed p =>
      ({ s with
          peerConnections := s.peerConnections.erase p
          dataChannels := s.dataChannels.erase p
          authenticatedPeers := s.authenticatedPeers.erase p },
       noEffects)

/- ### Helper lemmas -/

theorem charAt_mem_cons (l : List Char) : ∀ n, charAt l n ∈ 'A' :: l := by
  induction l with
  | nil => intro n; simp [charAt]
  | cons a t ih =>
    intro n
    cases n with
    | zero => simp [charAt]
    | succ m =>
      have h := ih m
      show charAt t m ∈ 'A' :: a :: t
      rcases List.mem_cons.mp h with h1 | h2
      · simp [h1]
      · simp [h2]

theorem charAt_mem (l : List Char) (n : Nat) (h : n < l.length) : charAt l n ∈ l := by
  induction l generalizing n with
  | nil => simp at h
  | cons a t ih =>
    cases n with
    | zero => simp [charAt]
    | succ m =>
      have := ih m (by simpa using h)
      show charAt t m ∈ a :: t
      simp [this]

theorem b64d_b64c : ∀ n < 64, b64d (b64c n) = n := by decide

theorem b64c_mem_ext (n : Nat) : b64c n ∈ 'A' :: '=' :: b64chars := by
  have h := charAt_mem_cons b64chars n
  have hb : b64c n = charAt b64chars n := rfl
  rw [hb]
  rcases List.mem_cons.mp h with h1 | h2
  · rw [h1]; simp
  · simp [h2]

theorem b64c_ne_eq (n : Nat) : b64c n ≠ '=' := by
  have h := charAt_mem_cons b64chars n
  have hb : b64c n = charAt b64chars n := rfl
  intro he
  rw [hb] at he
  rw [he] at h
  exact absurd h (by decide)

theorem mem_btoa : ∀ (bs : List Nat), ∀ ch ∈ btoa bs, ch ∈ 'A' :: '=' :: b64chars
  | [] => by simp [btoa]
  | [a] => by
      intro ch hch
      simp only [btoa, List.mem_cons, List.not_mem_nil, or_false] at hch
      rcases hch with rfl | rfl | rfl | rfl
      · exact b64c_mem_ext _
      · exact b64c_mem_ext _
      · simp
      · simp
  | [a, b] => by
      intro ch hch
      simp only [btoa, List.mem_cons, List.not_mem_nil, or_false] at hch
      rcases hch with rfl | rfl | rfl | rfl
      · exact b64c_mem_ext _
      · exact b64c_mem_ext _
      · exact b64c_mem_ext _
      · simp
  | a :: b :: c :: rest => by
      intro ch hch
      simp only [btoa, List.mem_cons] at hch
      rcases hch with rfl | rfl | rfl | rfl | hm
      · exact b64c_mem_ext _
      · exact b64c_mem_ext _
      · exact b64c_mem_ext _
      · exact b64c_mem_ext _
      · exact mem_btoa rest ch hm

theorem colon_not_mem_btoa (bs : List Nat) : ':' ∉ btoa bs := by
  intro hm
  exact absurd (mem_btoa bs ':' hm) (by decide)

theorem btoa_ne_nil (bs : List Nat) (h : bs ≠ []) : btoa bs ≠ [] := by
  match bs with
  | [] => exact absurd rfl h
  | [a] => simp [btoa]
  | [a, b] => simp [btoa]
  | a :: b :: c :: rest => simp [btoa]

theorem atob_btoa : ∀ bs : List Nat, (∀ b ∈ bs, b < 256) → atob (btoa bs) = bs
  | [], _ => rfl
  | [a], h => by
      have ha : a < 256 := h a (by simp)
      simp only [btoa, atob]
      rw [if_pos trivial]
      rw [b64d_b64c (a / 4) (by omega), b64d_b64c (a % 4 * 16) (by omega)]
      simp only [List.cons.injEq, and_true]
      omega
  | [a, b], h => by
      have ha : a < 256 := h a (by simp)
      have hb : b < 256 := h b (by simp)
      simp only [btoa, atob]
      rw [if_neg (b64c_ne_eq _), if_pos trivial]
      rw [b64d_b64c (a / 4) (by omega), b64d_b64c (a % 4 * 16 + b / 16) (by omega),
        b64d_b64c (b % 16 * 4) (by omega)]
      simp only [List.cons.injEq, and_true]
      omega
  | a :: b :: c :: rest, h => by
      have ha : a < 256 := h a (by simp)
      have hb : b < 256 := h b (by simp)
      have hc : c < 256 := h c (by simp)
      have ih := atob_btoa rest (fun x hx => h x (by simp [hx]))
      simp only [btoa, atob]
      rw [if_neg (b64c_ne_eq _), if_neg (b64c_ne_eq _)]
      rw [b64d_b64c (a / 4) (by omega), b64d_b64c (a % 4 * 16 + b / 16) (by omega),
        b64d_b64c (b % 16 * 4 + c / 64) (by omega), b64d_b64c (c % 64) (by omega), ih]
      simp only [List.cons.injEq, and_true]
      omega

theorem splitColon_no_colon (l : List Char) (h : ':' ∉ l) : splitColon l = [l] := by
  induction l with
  | nil => rfl
  | cons c rest ih =>
    have hc : ¬ (c = ':') := by
      intro hcc
      exact h (by rw [hcc]; exact List.mem_cons_self _ _)
    have hr : ':' ∉ rest := fun hm => h (List.mem_cons_of_mem _ hm)
    simp [splitColon, hc, ih hr]

theorem splitColon_append (l1 l2 : List Char) (h : ':' ∉ l1) :
    splitColon (l1 ++ ':' :: l2) = l1 :: splitColon l2 := by
  induction l1 with
  | nil => simp [splitColon]
  | cons c rest ih =>
    have hc : ¬ (c = ':') := by
      intro hcc
      exact h (by rw [hcc]; exact List.mem_cons_self _ _)
    have hr : ':' ∉ rest := fun hm => h (List.mem_cons_of_mem _ hm)
    simp [splitColon, hc, ih hr]

theorem verifyPassword_eq (pbkdf2 : List Nat → List Nat → Nat → Nat → List Nat)
    (pw : List Nat) (saltB64 hashB64 : List Char)
    (h1 : ':' ∉ saltB64) (h2 : ':' ∉ hashB64)
    (h3 : saltB64 ≠ []) (h4 : hashB64 ≠ []) :
    verifyPassword pbkdf2 pw (saltB64 ++ ':' :: hashB64) =
      (btoa (pbkdf2 pw (atob saltB64) PBKDF2_ITERATIONS 256) == hashB64) := by
  obtain ⟨a, t, rfl⟩ : ∃ a t, saltB64 = a :: t := by
    cases saltB64 with
    | nil => exact absurd rfl h3
    | cons a t => exact ⟨a, t, rfl⟩
  obtain ⟨b, u, rfl⟩ : ∃ b u, hashB64 = b :: u := by
    cases hashB64 with
    | nil => exact absurd rfl h4
    | cons b u => exact ⟨b, u, rfl⟩
  unfold verifyPassword
  rw [splitColon_append _ _ h1, splitColon_no_colon _ h2]
  simp

/-- C8: verify_password(pw, hash_password(pw)) returns true (round trip through
the salted verifier base64(salt):base64(hash)), and for a different password
verify_password returns false.  The PBKDF2-HMAC-SHA256 primitive is external
and abstract here; the hypotheses record its contract (byte output, 32-byte
length) and its collision-freeness at the two passwords, which is what
distinctness of passwords means at this level of abstraction. -/
theorem password_verify_roundtrip_C8
    (pbkdf2 : List Nat → List Nat → Nat → Nat → List Nat)
    (salt pw pw2 : List Nat)
    (hsalt : ∀ b ∈ salt, b < 256) (hslen : salt.length = 16)
    (hbytes1 : ∀ b ∈ pbkdf2 pw salt PBKDF2_ITERATIONS 256, b < 256)
    (hbytes2 : ∀ b ∈ pbkdf2 pw2 salt PBKDF2_ITERATIONS 256, b < 256)
    (hlen1 : (pbkdf2 pw salt PBKDF2_ITERATIONS 256).length = 32)
    (hne : pw2 ≠ pw)
    (hdiff : pbkdf2 pw2 salt PBKDF2_ITERATIONS 256 ≠ pbkdf2 pw salt PBKDF2_ITERATIONS 256) :
    verifyPassword pbkdf2 pw (hashPassword pbkdf2 salt pw) = true ∧
    verifyPassword pbkdf2 pw2 (hashPassword pbkdf2 salt pw) = false := by
  have hsne : salt ≠ [] := by
    intro h0
    rw [h0] at hslen
    simp at hslen
  have hhne : pbkdf2 pw salt PBKDF2_ITERATIONS 256 ≠ [] := by
    intro h0
    rw [h0] at hlen1
    simp at hlen1
  have hs1 : ':' ∉ btoa salt := colon_not_mem_btoa salt
  have hs2 : ':' ∉ btoa (pbkdf2 pw salt PBKDF2_ITERATIONS 256) := colon_not_mem_btoa _
  have hb1 : btoa salt ≠ [] := btoa_ne_nil _ hsne
  have hb2 : btoa (pbkdf2 pw salt PBKDF2_ITERATIONS 256) ≠ [] := btoa_ne_nil _ hhne
  have he1 := verifyPassword_eq pbkdf2 pw (btoa salt)
    (btoa (pbkdf2 pw salt PBKDF2_ITERATIONS 256)) hs1 hs2 hb1 hb2
  have he2 := verifyPassword_eq pbkdf2 pw2 (btoa salt)
    (btoa (pbkdf2 pw salt PBKDF2_ITERATIONS 256)) hs1 hs2 hb1 hb2
  rw [atob_btoa salt hsalt] at he1 he2
  constructor
  · show verifyPassword pbkdf2 pw
      (btoa salt ++ ':' :: btoa (pbkdf2 pw salt PBKDF2_ITERATIONS 256)) = true
    rw [he1]
    simp
  · show verifyPassword pbkdf2 pw2
      (btoa salt ++ ':' :: btoa (pbkdf2 pw salt PBKDF2_ITERATIONS 256)) = false
    rw [he2]
    simp only [beq_eq_false_iff_ne, ne_eq]
    intro heq
    have h3 := congrArg atob heq
    rw [atob_btoa _ hbytes2, atob_btoa _ hbytes1] at h3
    exact hdiff h3

/-- C8 witness: the theorem applied at a concrete PBKDF2 instantiation, a
concrete 16-byte salt and the passwords [1] and [2]. -/
theorem password_verify_roundtrip_C8_witness :
    verifyPassword (fun q _ _ _ => List.replicate 32 (getByte q 0 % 256)) [1]
      (hashPassword (fun q _ _ _ => List.replicate 32 (getByte q 0 % 256))
        (List.range 16) [1]) = true ∧
    verifyPassword (fun q _ _ _ => List.replicate 32 (getByte q 0 % 256)) [2]
      (hashPassword (fun q _ _ _ => List.replicate 32 (getByte q 0 % 256))
        (List.range 16) [1]) = false :=
  password_verify_roundtrip_C8 (fun q _ _ _ => List.replicate 32 (getByte q 0 % 256))
    (List.range 16) [1] [2] (by decide) (by decide) (by decide) (by decide)
    (by decide) (by decide) (by decide)

theorem shareAlphabet_excl :
    ∀ c ∈ shareAlphabet, c ∉ (['I', 'O', '0', '1'] : List Char) := by decide

/-- C9: for an 8-byte input, the generated share code is the 8 alphabet
characters obtained by reducing each byte modulo the 32-symbol alphabet, with
a single dash inserted between positions 4 and 5 (index 4 of the rendered
string), and the characters I, O, 0, 1 never appear. -/
theorem share_code_format_C9 (bs : List Nat) (h : bs.length = 8) :
    generateShareCode bs =
      [codeChar bs 0, codeChar bs 1, codeChar bs 2, codeChar bs 3, '-',
       codeChar bs 4, codeChar bs 5, codeChar bs 6, codeChar bs 7] ∧
    (∀ i, codeChar bs i ∈ shareAlphabet) ∧
    (∀ c ∈ generateShareCode bs, c ∉ (['I', 'O', '0', '1'] : List Char)) := by
  have hmem : ∀ i, codeChar bs i ∈ shareAlphabet := by
    intro i
    exact charAt_mem _ _ (Nat.mod_lt _ (by decide))
  have heq : generateShareCode bs =
      [codeChar bs 0, codeChar bs 1, codeChar bs 2, codeChar bs 3, '-',
       codeChar bs 4, codeChar bs 5, codeChar bs 6, codeChar bs 7] := rfl
  refine ⟨heq, hmem, ?_⟩
  intro c hc
  rw [heq] at hc
  simp only [List.mem_cons, List.not_mem_nil, or_false] at hc
  rcases hc with rfl | rfl | rfl | rfl | rfl | rfl | rfl | rfl | rfl
  · exact shareAlphabet_excl _ (hmem 0)
  · exact shareAlphabet_excl _ (hmem 1)
  · exact shareAlphabet_excl _ (hmem 2)
  · exact shareAlphabet_excl _ (hmem 3)
  · decide
  · exact shareAlphabet_excl _ (hmem 4)
  · exact shareAlphabet_excl _ (hmem 5)
  · exact shareAlphabet_excl _ (hmem 6)
  · exact shareAlphabet_excl _ (hmem 7)

/-- C9 witness at the concrete byte input [0, 1, 2, 3, 4, 5, 6, 7]. -/
theorem share_code_format_C9_witness :
    generateShareCode [0, 1, 2, 3, 4, 5, 6, 7] =
      [codeChar [0, 1, 2, 3, 4, 5, 6, 7] 0, codeChar [0, 1, 2, 3, 4, 5, 6, 7] 1,
       codeChar [0, 1, 2, 3, 4, 5, 6, 7] 2, codeChar [0, 1, 2, 3, 4, 5, 6, 7] 3, '-',
       codeChar [0, 1, 2, 3, 4, 5, 6, 7] 4, codeChar [0, 1, 2, 3, 4, 5, 6, 7] 5,
       codeChar [0, 1, 2, 3, 4, 5, 6, 7] 6, codeChar [0, 1, 2, 3, 4, 5, 6, 7] 7] ∧
    (∀ i, codeChar [0, 1, 2, 3, 4, 5, 6, 7] i ∈ shareAlphabet) ∧
    (∀ c ∈ generateShareCode [0, 1, 2, 3, 4, 5, 6, 7],
      c ∉ (['I', 'O', '0', '1'] : List Char)) :=
  share_code_format_C9 [0, 1, 2, 3, 4, 5, 6, 7] (by decide)

/- ### KV store lemmas -/

theorem kvFind_kvRemove_ne (kv : KV) (k k2 : List Char) (h : k2 ≠ k) :
    kvFind (kvRemove kv k2) k = kvFind kv k := by
  induction kv with
  | nil => rfl
  | cons e rest ih =>
    by_cases he : e.1 = k2
    · have hek : ¬ (e.1 = k) := by
        rw [he]
        exact h
      simp [kvRemove, kvFind, he, hek, ih, h]
    · by_cases hek : e.1 = k
      · simp [kvRemove, kvFind, he, hek, ih, h, Ne.symm h]
      · simp [kvRemove, kvFind, he, hek, ih]

theorem kvFind_kvRemove_self (kv : KV) (k : List Char) :
    kvFind (kvRemove kv k) k = none := by
  induction kv with
  | nil => rfl
  | cons e rest ih =>
    by_cases he : e.1 = k
    · simp [kvRemove, he, ih]
    · simp [kvRemove, kvFind, he, ih]

theorem kvFind_kvPut_self (kv : KV) (now : Nat) (k : List Char) (v : KVValue)
    (ttl : Nat) : kvFind (kvPut kv now k v ttl) k = some (v, now + ttl * 1000) := by
  simp [kvPut, kvFind]

theorem kvFind_kvPut_ne (kv : KV) (now : Nat) (k k2 : List Char) (v : KVValue)
    (ttl : Nat) (h : k2 ≠ k) :
    kvFind (kvPut kv now k2 v ttl) k = kvFind kv k := by
  have h1 : kvFind (kvPut kv now k2 v ttl) k = kvFind (kvRemove kv k2) k := by
    simp [kvPut, kvFind, h]
  rw [h1]
  exact kvFind_kvRemove_ne kv k k2 h

theorem inviteKey_ne_rlKey (code ip : List Char) : inviteKey code ≠ rlKey ip := by
  intro h
  have h2 : 'i' = 'r' := congrArg (fun l => l.headD ' ') h
  exact absurd h2 (by decide)

theorem peerKey_ne_rlKey (roomId peerId ip : List Char) :
    peerKey roomId peerId ≠ rlKey ip := by
  intro h
  have h2 : 'o' = 'a' := congrArg (fun l => l.getD 1 ' ') h
  exact absurd h2 (by decide)

/- Every route of the worker leaves the rate-limit entry alone and never
   itself produces a 429. -/
theorem fetchRoute_ok (kv : KV) (now : Nat) (ip : List Char) (req : Req)
    (rnd : List Nat) :
    (fetchRoute kv now ip req rnd).1 ≠ Resp.rateLimited ∧
    kvFind (fetchRoute kv now ip req rnd).2 (rlKey ip) = kvFind kv (rlKey ip) := by
  cases req with
  | health => simp [fetchRoute]
  | createInvite roomId =>
    by_cases hu : isValidUUID roomId = true
    · refine ⟨?_, ?_⟩
      · simp [fetchRoute, handleCreateInvite, hu]
      · have h1 : (fetchRoute kv now ip (Req.createInvite roomId) rnd).2 =
            kvPut kv now (inviteKey (generateShareCode rnd))
              (KVValue.invite roomId now ip) SHARE_CODE_TTL := by
          simp [fetchRoute, handleCreateInvite, hu]
        rw [h1]
        exact kvFind_kvPut_ne _ _ _ _ _ _ (inviteKey_ne_rlKey _ _)
    · simp [fetchRoute, handleCreateInvite, hu]
  | joinInvite code =>
    cases hg : kvGet kv now (inviteKey (code.map Char.toUpper)) with
    | none => simp [fetchRoute, handleJoinInvite, hg]
    | some v =>
      refine ⟨?_, ?_⟩
      · simp [fetchRoute, handleJoinInvite, hg]
      · have h1 : (fetchRoute kv now ip (Req.joinInvite code) rnd).2 =
            kvDelete kv (inviteKey (code.map Char.toUpper)) := by
          simp [fetchRoute, handleJoinInvite, hg]
        rw [h1]
        exact kvFind_kvRemove_ne _ _ _ (inviteKey_ne_rlKey _ _)
  | announce roomId peerId sdp ice =>
    by_cases hu : isValidUUID roomId = true
    · by_cases hp : peerId = []
      · simp [fetchRoute, handleAnnounce, hu, hp]
      · refine ⟨?_, ?_⟩
        · simp [fetchRoute, handleAnnounce, hu, hp]
        · have h1 : (fetchRoute kv now ip (Req.announce roomId peerId sdp ice) rnd).2 =
              kvPut kv now (peerKey roomId peerId)
                (KVValue.peerRec peerId sdp ice now) PEER_TTL := by
            simp [fetchRoute, handleAnnounce, hu, hp]
          rw [h1]
          exact kvFind_kvPut_ne _ _ _ _ _ _ (peerKey_ne_rlKey _ _ _)
    · simp [fetchRoute, handleAnnounce, hu]
  | getPeers roomId =>
    by_cases hu : isValidUUID roomId = true
    · simp [fetchRoute, handleGetPeers, hu]
    · simp [fetchRoute, handleGetPeers, hu]
  | unknown => simp [fetchRoute]

/- A request that sees a counter below the cap is let through and bumps the
   counter with a fresh 60 s expiry. -/
theorem fetch_not_limited (kv : KV) (ip : List Char) (r : FetchIn) (i ex : Nat)
    (hfind : kvFind kv (rlKey ip) = some (KVValue.counter i, ex))
    (hnow : r.now < ex) (hi : i < MAX_REQUESTS_PER_IP) :
    (fetch kv r.now ip r.req r.rnd).1 ≠ Resp.rateLimited ∧
    kvFind (fetch kv r.now ip r.req r.rnd).2 (rlKey ip) =
      some (KVValue.counter (i + 1), r.now + RATE_LIMIT_WINDOW * 1000) := by
  have hrl : checkRateLimit kv r.now ip =
      (false, kvPut kv r.now (rlKey ip) (KVValue.counter (i + 1)) RATE_LIMIT_WINDOW) := by
    simp only [checkRateLimit, kvGet, hfind]
    simp [hnow, Nat.not_le.mpr hi]
  have hroute := fetchRoute_ok
    (kvPut kv r.now (rlKey ip) (KVValue.counter (i + 1)) RATE_LIMIT_WINDOW)
    r.now ip r.req r.rnd
  have hpost := kvFind_kvPut_self kv r.now (rlKey ip) (KVValue.counter (i + 1))
    RATE_LIMIT_WINDOW
  constructor
  · simpa [fetch, hrl] using hroute.1
  · have h2 : kvFind (fetch kv r.now ip r.req r.rnd).2 (rlKey ip) =
        kvFind (kvPut kv r.now (rlKey ip) (KVValue.counter (i + 1)) RATE_LIMIT_WINDOW)
          (rlKey ip) := by
      simpa [fetch, hrl] using hroute.2
    rw [h2, hpost]

/- The very first request from an IP with no counter passes and stores 1. -/
theorem fetch_first (kv : KV) (ip : List Char) (r : FetchIn)
    (hfind : kvFind kv (rlKey ip) = none) :
    (fetch kv r.now ip r.req r.rnd).1 ≠ Resp.rateLimited ∧
    kvFind (fetch kv r.now ip r.req r.rnd).2 (rlKey ip) =
      some (KVValue.counter 1, r.now + RATE_LIMIT_WINDOW * 1000) := by
  have hrl : checkRateLimit kv r.now ip =
      (false, kvPut kv r.now (rlKey ip) (KVValue.counter 1) RATE_LIMIT_WINDOW) := by
    simp only [checkRateLimit, kvGet, hfind]
    simp [MAX_REQUESTS_PER_IP]
  have hroute := fetchRoute_ok
    (kvPut kv r.now (rlKey ip) (KVValue.counter 1) RATE_LIMIT_WINDOW)
    r.now ip r.req r.rnd
  have hpost := kvFind_kvPut_self kv r.now (rlKey ip) (KVValue.counter 1)
    RATE_LIMIT_WINDOW
  constructor
  · simpa [fetch, hrl] using hroute.1
  · have h2 : kvFind (fetch kv r.now ip r.req r.rnd).2 (rlKey ip) =
        kvFind (kvPut kv r.now (rlKey ip) (KVValue.counter 1) RATE_LIMIT_WINDOW)
          (rlKey ip) := by
      simpa [fetch, hrl] using hroute.2
    rw [h2, hpost]

/- A request that sees the counter at the cap is rejected and changes nothing. -/
theorem fetch_limited (kv : KV) (ip : List Char) (r : FetchIn) (i ex : Nat)
    (hfind : kvFind kv (rlKey ip) = some (KVValue.counter i, ex))
    (hnow : r.now < ex) (hi : MAX_REQUESTS_PER_IP ≤ i) :
    fetch kv r.now ip r.req r.rnd = (Resp.rateLimited, kv) := by
  have hrl : checkRateLimit kv r.now ip = (true, kv) := by
    simp only [checkRateLimit, kvGet, hfind]
    simp [hnow, hi]
  simp [fetch, hrl]

theorem runFetch_under_limit (ip : List Char) (T : Nat) :
    ∀ (rs : List FetchIn) (kv : KV) (i ex : Nat),
      (∀ r ∈ rs, T ≤ r.now ∧ r.now < T + 60000) →
      kvFind kv (rlKey ip) = some (KVValue.counter i, ex) →
      T + 60000 ≤ ex →
      i + rs.length ≤ MAX_REQUESTS_PER_IP →
      (∀ resp ∈ (runFetch ip kv rs).1, resp ≠ Resp.rateLimited) ∧
      ∃ ex2, T + 60000 ≤ ex2 ∧
        kvFind (runFetch ip kv rs).2 (rlKey ip) =
          some (KVValue.counter (i + rs.length), ex2)
  | [], kv, i, ex, _, hfind, hex, _ => by
      refine ⟨by simp [runFetch], ex, hex, ?_⟩
      simpa [runFetch] using hfind
  | r :: rs, kv, i, ex, htimes, hfind, hex, hlen => by
      have hr := htimes r (by simp)
      have hi : i < MAX_REQUESTS_PER_IP := by
        simp only [List.length_cons] at hlen
        omega
      have hstep := fetch_not_limited kv ip r i ex hfind (by omega) hi
      have hex2 : T + 60000 ≤ r.now + RATE_LIMIT_WINDOW * 1000 := by
        have : RATE_LIMIT_WINDOW * 1000 = 60000 := by norm_num [RATE_LIMIT_WINDOW]
        omega
      have ih := runFetch_under_limit ip T rs (fetch kv r.now ip r.req r.rnd).2 (i + 1)
        (r.now + RATE_LIMIT_WINDOW * 1000)
        (fun x hx => htimes x (by simp [hx]))
        hstep.2 hex2 (by simp only [List.length_cons] at hlen; omega)
      constructor
      · intro resp hresp
        simp only [runFetch, List.mem_cons] at hresp
        rcases hresp with h | h
        · rw [h]
          exact hstep.1
        · exact ih.1 resp h
      · obtain ⟨ex3, hex3, hfin⟩ := ih.2
        refine ⟨ex3, hex3, ?_⟩
        have harith : i + 1 + rs.length = i + (r :: rs).length := by
          simp only [List.length_cons]
          omega
        rw [← harith]
        simpa [runFetch] using hfin

/-- C6: for a client IP with no rate-limit record, 100 requests whose times
all lie inside one 60-second window are all admitted (none answered 429), and
a 101st request inside the window is answered 429 while leaving the store
exactly as it was: no invite, counter or presence write happens for the
rejected request. -/
theorem rate_limit_100_C6 (ip : List Char) (kv0 : KV) (T : Nat)
    (rs : List FetchIn) (last : FetchIn)
    (hlen : rs.length = 100)
    (htimes : ∀ r ∈ rs, T ≤ r.now ∧ r.now < T + 60000)
    (hl1 : T ≤ last.now) (hl2 : last.now < T + 60000)
    (hfresh : kvFind kv0 (rlKey ip) = none) :
    (∀ resp ∈ (runFetch ip kv0 rs).1, resp ≠ Resp.rateLimited) ∧
    fetch (runFetch ip kv0 rs).2 last.now ip last.req last.rnd =
      (Resp.rateLimited, (runFetch ip kv0 rs).2) := by
  cases rs with
  | nil => simp at hlen
  | cons r0 rest =>
    have hr0 := htimes r0 (by simp)
    have hfirst := fetch_first kv0 ip r0 hfresh
    have hw : RATE_LIMIT_WINDOW * 1000 = 60000 := by norm_num [RATE_LIMIT_WINDOW]
    have hex1 : T + 60000 ≤ r0.now + RATE_LIMIT_WINDOW * 1000 := by omega
    have hrestlen : rest.length = 99 := by
      simp only [List.length_cons] at hlen
      omega
    have ih := runFetch_under_limit ip T rest (fetch kv0 r0.now ip r0.req r0.rnd).2 1
      (r0.now + RATE_LIMIT_WINDOW * 1000)
      (fun x hx => htimes x (by simp [hx]))
      hfirst.2 hex1
      (by rw [hrestlen]; norm_num [MAX_REQUESTS_PER_IP])
    obtain ⟨hresps, ex2, hex2, hfin⟩ := ih
    constructor
    · intro resp hresp
      simp only [runFetch, List.mem_cons] at hresp
      rcases hresp with h | h
      · rw [h]
        exact hfirst.1
      · exact hresps resp h
    · have hfin2 : kvFind (runFetch ip kv0 (r0 :: rest)).2 (rlKey ip) =
          some (KVValue.counter 100, ex2) := by
        rw [hrestlen] at hfin
        norm_num at hfin
        simpa [runFetch] using hfin
      exact fetch_limited _ ip last 100 ex2 hfin2 (by omega)
        (by norm_num [MAX_REQUESTS_PER_IP])

/-- C6 witness: 100 health requests at time 0 from one IP against the empty
store, then a 101st request at time 0. -/
theorem rate_limit_100_C6_witness :
    (∀ resp ∈ (runFetch ['x'] [] (List.replicate 100 ⟨0, Req.health, []⟩)).1,
        resp ≠ Resp.rateLimited) ∧
    fetch (runFetch ['x'] [] (List.replicate 100 ⟨0, Req.health, []⟩)).2 0 ['x']
        Req.health [] =
      (Resp.rateLimited, (runFetch ['x'] [] (List.replicate 100 ⟨0, Req.health, []⟩)).2) :=
  rate_limit_100_C6 ['x'] [] 0 (List.replicate 100 ⟨0, Req.health, []⟩)
    ⟨0, Req.health, []⟩ (by decide) (by decide) (by decide) (by decide) rfl

/-- C4 counterexample: the claim's race clause fails on the code.  The
handler's KV.get and KV.delete are separate awaited store operations, so with
the invite for code AAAA-AAAA present, interleaving two redemptions as
get1, get2, delete1, delete2 makes both return the room id rather than
exactly one succeeding. -/
theorem join_race_both_succeed_C4 :
    (runTwo 1
        ([(inviteKey ['A', 'A', 'A', 'A', '-', 'A', 'A', 'A', 'A'],
           KVValue.invite ['r'] 0 ['i'], 300000)],
         ⟨['A', 'A', 'A', 'A', '-', 'A', 'A', 'A', 'A'], none, none⟩,
         ⟨['A', 'A', 'A', 'A', '-', 'A', 'A', 'A', 'A'], none, none⟩)
        [true, false, true, false]).2.1.resp = some (Resp.joined ['r']) ∧
    (runTwo 1
        ([(inviteKey ['A', 'A', 'A', 'A', '-', 'A', 'A', 'A', 'A'],
           KVValue.invite ['r'] 0 ['i'], 300000)],
         ⟨['A', 'A', 'A', 'A', '-', 'A', 'A', 'A', 'A'], none, none⟩,
         ⟨['A', 'A', 'A', 'A', '-', 'A', 'A', 'A', 'A'], none, none⟩)
        [true, false, true, false]).2.2.resp = some (Resp.joined ['r']) := by decide

/-- C4 amended: sequentially, a share code is redeemable at most once: while
the invite is stored and unexpired the first redemption returns its roomId and
deletes the record, and any later redemption of the same code gets NotFound. -/
theorem join_sequential_once_C4 (kv : KV) (now now2 : Nat)
    (code roomId cBy : List Char) (cAt : Nat)
    (h : kvGet kv now (inviteKey code) = some (KVValue.invite roomId cAt cBy)) :
    (handleJoinInvite kv now code).1 = Resp.joined roomId ∧
    (handleJoinInvite (handleJoinInvite kv now code).2 now2 code).1 =
      Resp.notFound := by
  have h1 : handleJoinInvite kv now code =
      (Resp.joined roomId, kvDelete kv (inviteKey code)) := by
    simp [handleJoinInvite, h, inviteRoomId]
  have h2 : kvGet (kvDelete kv (inviteKey code)) now2 (inviteKey code) = none := by
    simp [kvGet, kvDelete, kvFind_kvRemove_self]
  rw [h1]
  exact ⟨rfl, by simp [handleJoinInvite, h2]⟩

/-- C4 witness: a store holding one invite, redeemed twice in sequence. -/
theorem join_sequential_once_C4_witness :
    (handleJoinInvite
        [(inviteKey ['A', 'B'], KVValue.invite ['r'] 0 ['i'], 300000)] 1
        ['A', 'B']).1 = Resp.joined ['r'] ∧
    (handleJoinInvite
        (handleJoinInvite
          [(inviteKey ['A', 'B'], KVValue.invite ['r'] 0 ['i'], 300000)] 1
          ['A', 'B']).2 2 ['A', 'B']).1 = Resp.notFound :=
  join_sequential_once_C4 _ 1 2 ['A', 'B'] ['r'] ['i'] 0 (by decide)

/-- C7 counterexample: the claim's collision clause fails on the code.  With
the invite AAAA-AAAA unexpired in the store at the time of the call, random
bytes of all zeros make create_invite return that same code (no regeneration),
and its unconditional kvPut replaces the existing invite record. -/
theorem share_code_collision_overwrite_C7 :
    (handleCreateInvite
        [(inviteKey ['A', 'A', 'A', 'A', '-', 'A', 'A', 'A', 'A'],
          KVValue.invite ['r'] 0 ['i'], 300000)]
        1 ("550e8400-e29b-41d4-a716-446655440000".toList) ['j']
        [0, 0, 0, 0, 0, 0, 0, 0]).1 =
      Resp.inviteCreated ['A', 'A', 'A', 'A', '-', 'A', 'A', 'A', 'A']
        SHARE_CODE_TTL ∧
    kvGet
        [(inviteKey ['A', 'A', 'A', 'A', '-', 'A', 'A', 'A', 'A'],
          KVValue.invite ['r'] 0 ['i'], 300000)]
        1 (inviteKey ['A', 'A', 'A', 'A', '-', 'A', 'A', 'A', 'A']) =
      some (KVValue.invite ['r'] 0 ['i']) ∧
    kvFind
        (handleCreateInvite
          [(inviteKey ['A', 'A', 'A', 'A', '-', 'A', 'A', 'A', 'A'],
            KVValue.invite ['r'] 0 ['i'], 300000)]
          1 ("550e8400-e29b-41d4-a716-446655440000".toList) ['j']
          [0, 0, 0, 0, 0, 0, 0, 0]).2
        (inviteKey ['A', 'A', 'A', 'A', '-', 'A', 'A', 'A', 'A']) =
      some (KVValue.invite ("550e8400-e29b-41d4-a716-446655440000".toList) 1 ['j'],
        1 + SHARE_CODE_TTL * 1000) := by decide

/-- C7 amended: create_invite rejects a malformed room identifier with 400 and
no store write; for a valid identifier it stores the code generated from the
random bytes unconditionally, so after the call the store maps that code to
the new invite record, overwriting any previous record under the same code. -/
theorem create_invite_behavior_C7 (kv : KV) (now : Nat) (roomId ip : List Char)
    (rnd : List Nat) :
    (isValidUUID roomId = false →
      handleCreateInvite kv now roomId ip rnd = (Resp.invalidRoom, kv)) ∧
    (isValidUUID roomId = true →
      handleCreateInvite kv now roomId ip rnd =
        (Resp.inviteCreated (generateShareCode rnd) SHARE_CODE_TTL,
         kvPut kv now (inviteKey (generateShareCode rnd))
           (KVValue.invite roomId now ip) SHARE_CODE_TTL) ∧
      kvFind (handleCreateInvite kv now roomId ip rnd).2
          (inviteKey (generateShareCode rnd)) =
        some (KVValue.invite roomId now ip, now + SHARE_CODE_TTL * 1000)) := by
  constructor
  · intro h
    simp [handleCreateInvite, h]
  · intro h
    refine ⟨by simp [handleCreateInvite, h], ?_⟩
    simp [handleCreateInvite, h, kvFind_kvPut_self]

/-- C7 witness at a malformed and a well-formed room identifier. -/
theorem create_invite_behavior_C7_witness :
    (isValidUUID ['z'] = false →
      handleCreateInvite [] 0 ['z'] ['i'] [0, 0, 0, 0, 0, 0, 0, 0] =
        (Resp.invalidRoom, [])) ∧
    (isValidUUID ['z'] = true →
      handleCreateInvite [] 0 ['z'] ['i'] [0, 0, 0, 0, 0, 0, 0, 0] =
        (Resp.inviteCreated (generateShareCode [0, 0, 0, 0, 0, 0, 0, 0])
           SHARE_CODE_TTL,
         kvPut [] 0 (inviteKey (generateShareCode [0, 0, 0, 0, 0, 0, 0, 0]))
           (KVValue.invite ['z'] 0 ['i']) SHARE_CODE_TTL) ∧
      kvFind (handleCreateInvite [] 0 ['z'] ['i'] [0, 0, 0, 0, 0, 0, 0, 0]).2
          (inviteKey (generateShareCode [0, 0, 0, 0, 0, 0, 0, 0])) =
        some (KVValue.invite ['z'] 0 ['i'], 0 + SHARE_CODE_TTL * 1000)) :=
  create_invite_behavior_C7 [] 0 ['z'] ['i'] [0, 0, 0, 0, 0, 0, 0, 0]

/- ### Session manager lemmas and claims -/

theorem mem_addPeer_self (l : List (List Char)) (p : List Char) : p ∈ addPeer l p := by
  unfold addPeer
  by_cases h : p ∈ l
  · simp [h]
  · simp [h]

/-- C1 amended: in every step of the session manager, any emitted CRDT frame
(yjs-update, yjs-sync-request, yjs-sync-response) is addressed to a peer that
is in the single authenticatedPeers set of the post-state.  That set is not
directional: a peer joins it either when a locally verified auth-response
arrives or when a bare auth-success frame is received, so the claim's
requirement of a completed authentication exchange in both directions does not
hold (see the counterexample). -/
theorem crdt_sent_only_to_authenticated_C1 (hmac : List Char → Nat → List Char)
    (s : SyncManager) (e : Evt) (q : List Char) (f : Frame)
    (hsend : (q, f) ∈ (SyncManager.stepEvt hmac s e).2.sends)
    (hcrdt : f.isCrdt = true) :
    q ∈ (SyncManager.stepEvt hmac s e).1.authenticatedPeers := by
  cases e with
  | channelOpen p ch =>
    simp [SyncManager.stepEvt] at hsend
    rcases hsend with ⟨rfl, rfl⟩
    simp [Frame.isCrdt] at hcrdt
  | recv p fr =>
    cases fr with
    | authChallenge c =>
      rcases hk : s.authKey with _ | k
      · simp [noEffects, SyncManager.stepEvt, SyncManager.handleDataChannelMessage, hk] at hsend
      · by_cases hdc : p ∈ s.dataChannels
        · simp [noEffects, SyncManager.stepEvt, SyncManager.handleDataChannelMessage, hk, hdc]
            at hsend
          rcases hsend with ⟨rfl, rfl⟩
          simp [Frame.isCrdt] at hcrdt
        · simp [noEffects, SyncManager.stepEvt, SyncManager.handleDataChannelMessage, hk, hdc]
            at hsend
    | authResponse c r =>
      rcases hk : s.authKey with _ | k
      · simp [noEffects, SyncManager.stepEvt, SyncManager.handleDataChannelMessage, hk] at hsend
      · by_cases hv : hmac c k = r
        · by_cases hdc : p ∈ s.dataChannels
          · simp [noEffects, SyncManager.stepEvt, SyncManager.handleDataChannelMessage, hk, hv,
              hdc, SyncManager.startYjsSync] at hsend ⊢
            rcases hsend with ⟨rfl, rfl⟩ | ⟨rfl, rfl⟩
            · simp [Frame.isCrdt] at hcrdt
            · exact mem_addPeer_self _ _
          · simp [noEffects, SyncManager.stepEvt, SyncManager.handleDataChannelMessage, hk, hv,
              hdc, SyncManager.startYjsSync] at hsend
        · simp [noEffects, SyncManager.stepEvt, SyncManager.handleDataChannelMessage, hk, hv]
            at hsend
    | authSuccess =>
      by_cases hdc : p ∈ s.dataChannels
      · simp [noEffects, SyncManager.stepEvt, SyncManager.handleDataChannelMessage, hdc,
          SyncManager.startYjsSync] at hsend ⊢
        rcases hsend with ⟨rfl, rfl⟩
        exact mem_addPeer_self _ _
      · simp [noEffects, SyncManager.stepEvt, SyncManager.handleDataChannelMessage, hdc,
          SyncManager.startYjsSync] at hsend
    | yjsUpdate u =>
      by_cases ha : p ∈ s.authenticatedPeers <;>
        simp [noEffects, SyncManager.stepEvt, SyncManager.handleDataChannelMessage, ha] at hsend
    | yjsSyncRequest =>
      by_cases ha : p ∈ s.authenticatedPeers
      · by_cases hdc : p ∈ s.dataChannels
        · simp [noEffects, SyncManager.stepEvt, SyncManager.handleDataChannelMessage, ha, hdc]
            at hsend ⊢
          rcases hsend with ⟨rfl, rfl⟩
          exact ha
        · simp [noEffects, SyncManager.stepEvt, SyncManager.handleDataChannelMessage, ha, hdc]
            at hsend
      · simp [noEffects, SyncManager.stepEvt, SyncManager.handleDataChannelMessage, ha] at hsend
    | yjsSyncResponse u =>
      by_cases ha : p ∈ s.authenticatedPeers <;>
        simp [noEffects, SyncManager.stepEvt, SyncManager.handleDataChannelMessage, ha] at hsend
  | docUpdate u o =>
    simp only [SyncManager.stepEvt] at hsend ⊢
    simp only [SyncManager.observerSends, List.mem_filterMap] at hsend
    obtain ⟨x, hx, hif⟩ := hsend
    by_cases h1 : o = some x
    · simp [h1] at hif
    · by_cases h2 : x ∈ s.authenticatedPeers ∧ x ∈ s.dataChannels
      · simp only [h1, h2, if_true, if_false, ite_true, ite_false, if_neg, if_pos,
          Option.some.injEq] at hif
        have hif2 : (x, Frame.yjsUpdate u) = (q, f) := by
          simpa [h1, h2] using hif
        have hq : q = x := by
          have := congrArg Prod.fst hif2
          simpa using this.symm
        rw [hq]
        exact h2.1
      · simp [h1, h2] at hif
  | channelClosed p =>
    simp [noEffects, SyncManager.stepEvt] at hsend

/-- C1 witness: a document update fans out a yjs-update to the authenticated
peer q, and the theorem places q in the post-state authenticatedPeers. -/
theorem crdt_sent_only_to_authenticated_C1_witness :
    ['q'] ∈ (SyncManager.stepEvt (fun c _ => c)
        { status := SyncStatus.syncing, authKey := some 0, encryptionKey := some 0,
          ws := true, peerConnections := [['q']], dataChannels := [['q']],
          authenticatedPeers := [['q']], observers := [['q']], pollTimer := true,
          announceTimer := true, doc := [] }
        (Evt.docUpdate [5] none)).1.authenticatedPeers :=
  crdt_sent_only_to_authenticated_C1 (fun c _ => c) _ _ ['q'] (Frame.yjsUpdate [5])
    (by decide) (by decide)

/-- C1 counterexample: receiving a bare auth-success frame from a peer that
was never verified locally immediately puts that peer in authenticatedPeers
and sends it the CRDT frame yjs-sync-request, so a CRDT frame crosses the
transport although no authentication exchange completed in both directions
(the manager verified nothing). -/
theorem crdt_on_auth_success_alone_C1 :
    (['p'], Frame.yjsSyncRequest) ∈
      (SyncManager.stepEvt (fun c _ => c)
        { status := SyncStatus.syncing, authKey := some 0, encryptionKey := some 0,
          ws := true, peerConnections := [['p']], dataChannels := [['p']],
          authenticatedPeers := [], observers := [], pollTimer := true,
          announceTimer := true, doc := [] }
        (Evt.recv ['p'] Frame.authSuccess)).2.sends ∧
    Frame.isCrdt Frame.yjsSyncRequest = true := by decide

/-- C2 amended: the auth-response handler verifies the HMAC against the
challenge carried inside the frame itself; the outbound challenge generated in
initiateAuth is not retained anywhere in the manager's state and is never
compared.  Any challenge/response pair valid under the AuthKey is accepted
(the peer is marked authenticated, nothing is closed), and only a pair that
fails HMAC verification closes the peer connection, leaving the state
unchanged. -/
theorem auth_response_verify_only_C2 (hmac : List Char → Nat → List Char)
    (s : SyncManager) (p c r : List Char) (k : Nat)
    (hk : s.authKey = some k) :
    (hmac c k = r →
      p ∈ (SyncManager.handleDataChannelMessage hmac s p
            (Frame.authResponse c r)).1.authenticatedPeers ∧
      (SyncManager.handleDataChannelMessage hmac s p
        (Frame.authResponse c r)).2.closes = []) ∧
    (hmac c k ≠ r →
      (SyncManager.handleDataChannelMessage hmac s p
        (Frame.authResponse c r)).1 = s ∧
      (SyncManager.handleDataChannelMessage hmac s p
        (Frame.authResponse c r)).2.closes =
        (if p ∈ s.peerConnections then [p] else [])) := by
  constructor
  · intro hv
    constructor
    · by_cases hdc : p ∈ s.dataChannels <;>
        simp [SyncManager.handleDataChannelMessage, hk, hv, SyncManager.startYjsSync,
          hdc, mem_addPeer_self]
    · by_cases hdc : p ∈ s.dataChannels <;>
        simp [noEffects, SyncManager.handleDataChannelMessage, hk, hv,
          SyncManager.startYjsSync, hdc]
  · intro hv
    simp [noEffects, SyncManager.handleDataChannelMessage, hk, hv]

/-- C2 witness: the theorem applied on a manager holding AuthKey 0 with the
identity HMAC, a frame challenge c2 and matching response. -/
theorem auth_response_verify_only_C2_witness :
    ((fun (c : List Char) (_ : Nat) => c) ['c', '2'] 0 = ['c', '2'] →
      ['p'] ∈ (SyncManager.handleDataChannelMessage (fun c _ => c)
            { status := SyncStatus.syncing, authKey := some 0,
              encryptionKey := some 0, ws := true, peerConnections := [['p']],
              dataChannels := [['p']], authenticatedPeers := [], observers := [],
              pollTimer := true, announceTimer := true, doc := [] } ['p']
            (Frame.authResponse ['c', '2'] ['c', '2'])).1.authenticatedPeers ∧
      (SyncManager.handleDataChannelMessage (fun c _ => c)
            { status := SyncStatus.syncing, authKey := some 0,
              encryptionKey := some 0, ws := true, peerConnections := [['p']],
              dataChannels := [['p']], authenticatedPeers := [], observers := [],
              pollTimer := true, announceTimer := true, doc := [] } ['p']
        (Frame.authResponse ['c', '2'] ['c', '2'])).2.closes = []) ∧
    ((fun (c : List Char) (_ : Nat) => c) ['c', '2'] 0 ≠ ['c', '2'] →
      (SyncManager.handleDataChannelMessage (fun c _ => c)
            { status := SyncStatus.syncing, authKey := some 0,
              encryptionKey := some 0, ws := true, peerConnections := [['p']],
              dataChannels := [['p']], authenticatedPeers := [], observers := [],
              pollTimer := true, announceTimer := true, doc := [] } ['p']
        (Frame.authResponse ['c', '2'] ['c', '2'])).1 =
        { status := SyncStatus.syncing, authKey := some 0,
          encryptionKey := some 0, ws := true, peerConnections := [['p']],
          dataChannels := [['p']], authenticatedPeers := [], observers := [],
          pollTimer := true, announceTimer := true, doc := [] } ∧
      (SyncManager.handleDataChannelMessage (fun c _ => c)
            { status := SyncStatus.syncing, authKey := some 0,
              encryptionKey := some 0, ws := true, peerConnections := [['p']],
              dataChannels := [['p']], authenticatedPeers := [], observers := [],
              pollTimer := true, announceTimer := true, doc := [] } ['p']
        (Frame.authResponse ['c', '2'] ['c', '2'])).2.closes =
        (if ['p'] ∈
            ({ status := SyncStatus.syncing, authKey := some 0,
               encryptionKey := some 0, ws := true, peerConnections := [['p']],
               dataChannels := [['p']], authenticatedPeers := [], observers := [],
               pollTimer := true, announceTimer := true,
               doc := [] } : SyncManager).peerConnections then [['p']] else [])) :=
  auth_response_verify_only_C2 (fun c _ => c) _ ['p'] ['c', '2'] ['c', '2'] 0 rfl

/-- C2 counterexample: the channel to p opens and initiateAuth sends the
outbound challenge c1; then an auth-response arrives whose challenge field is
c2, different from c1, but whose signature is valid under the AuthKey.  The
claim requires the transport to be closed and the peer left unauthenticated;
the code instead marks p authenticated and closes nothing. -/
theorem unmatched_challenge_accepted_C2 :
    (SyncManager.stepEvt (fun c _ => c)
        { status := SyncStatus.syncing, authKey := some 0, encryptionKey := some 0,
          ws := true, peerConnections := [['p']], dataChannels := [],
          authenticatedPeers := [], observers := [], pollTimer := true,
          announceTimer := true, doc := [] }
        (Evt.channelOpen ['p'] ['c', '1'])).2.sends =
      [(['p'], Frame.authChallenge ['c', '1'])] ∧
    ['p'] ∈ (SyncManager.stepEvt (fun c _ => c)
        (SyncManager.stepEvt (fun c _ => c)
          { status := SyncStatus.syncing, authKey := some 0, encryptionKey := some 0,
            ws := true, peerConnections := [['p']], dataChannels := [],
            authenticatedPeers := [], observers := [], pollTimer := true,
            announceTimer := true, doc := [] }
          (Evt.channelOpen ['p'] ['c', '1'])).1
        (Evt.recv ['p'] (Frame.authResponse ['c', '2'] ['c', '2']))).1.authenticatedPeers ∧
    (SyncManager.stepEvt (fun c _ => c)
        (SyncManager.stepEvt (fun c _ => c)
          { status := SyncStatus.syncing, authKey := some 0, encryptionKey := some 0,
            ws := true, peerConnections := [['p']], dataChannels := [],
            authenticatedPeers := [], observers := [], pollTimer := true,
            announceTimer := true, doc := [] }
          (Evt.channelOpen ['p'] ['c', '1'])).1
        (Evt.recv ['p'] (Frame.authResponse ['c', '2'] ['c', '2']))).2.closes =
      [] := by decide

/-- C3: the code violates the claim.  A yjs-update frame from the
authenticated peer p is applied with no origin tag at all (the source calls
Y.applyUpdate without its origin argument), and the document observer
installed for p, fired with that null origin, fails its origin-equals-p test
and echoes the very same update back to p. -/
theorem yjs_update_origin_untagged_C3 :
    (SyncManager.handleDataChannelMessage (fun c _ => c)
        { status := SyncStatus.syncing, authKey := some 0, encryptionKey := some 0,
          ws := true, peerConnections := [['p']], dataChannels := [['p']],
          authenticatedPeers := [['p']], observers := [['p']], pollTimer := true,
          announceTimer := true, doc := [] }
        ['p'] (Frame.yjsUpdate [1, 2])).2.applies = [([1, 2], none)] ∧
    SyncManager.observerSends
        { status := SyncStatus.syncing, authKey := some 0, encryptionKey := some 0,
          ws := true, peerConnections := [['p']], dataChannels := [['p']],
          authenticatedPeers := [['p']], observers := [['p']], pollTimer := true,
          announceTimer := true, doc := [] }
        [1, 2] none = [(['p'], Frame.yjsUpdate [1, 2])] := by decide

/-- C5 counterexample: the claim says stop() drops the derived keys so that
hasEncryptionKey() is false afterwards; on a syncing manager holding keys,
stop() leaves the encryption key in place and hasEncryptionKey() stays true. -/
theorem stop_keeps_keys_C5 :
    SyncManager.hasEncryptionKey
      (SyncManager.stop
        { status := SyncStatus.syncing, authKey := some 3, encryptionKey := some 7,
          ws := true, peerConnections := [['p']], dataChannels := [['p']],
          authenticatedPeers := [['p']], observers := [['p']], pollTimer := true,
          announceTimer := true, doc := [1] }).1 = true := by decide

/-- C5 amended: stop() from any state cancels both timers, closes and drops
the relay socket, closes every peer connection, empties the peer-connection,
data-channel and authenticated-peer collections, sets the Idle (disconnected)
status and emits it; the derived AuthKey and EncryptionKey are left untouched,
so hasEncryptionKey() keeps its prior value rather than becoming false. -/
theorem stop_releases_resources_C5 (s : SyncManager) :
    (SyncManager.stop s).1.status = SyncStatus.disconnected ∧
    (SyncManager.stop s).1.pollTimer = false ∧
    (SyncManager.stop s).1.announceTimer = false ∧
    (SyncManager.stop s).1.ws = false ∧
    (SyncManager.stop s).1.peerConnections = [] ∧
    (SyncManager.stop s).1.dataChannels = [] ∧
    (SyncManager.stop s).1.authenticatedPeers = [] ∧
    (SyncManager.stop s).1.authKey = s.authKey ∧
    (SyncManager.stop s).1.encryptionKey = s.encryptionKey ∧
    SyncManager.hasEncryptionKey (SyncManager.stop s).1 =
      SyncManager.hasEncryptionKey s ∧
    (SyncManager.stop s).2 = [SyncStatus.disconnected] := by
  simp [SyncManager.stop, SyncManager.hasEncryptionKey]

/-- C10: calling start() while the manager's status is anything other than
disconnected returns immediately: every field of the manager is unchanged and
no status notification is emitted. -/
theorem start_noop_when_active_C10 (s : SyncManager) (keys : Option (Nat × Nat))
    (h : s.status ≠ SyncStatus.disconnected) :
    SyncManager.start s keys = (s, []) := by
  simp [SyncManager.start, h]

/-- C10 witness on a manager in the connecting status. -/
theorem start_noop_when_active_C10_witness :
    SyncManager.start
        { status := SyncStatus.connecting, authKey := none, encryptionKey := none,
          ws := false, peerConnections := [], dataChannels := [],
          authenticatedPeers := [], observers := [], pollTimer := false,
          announceTimer := false, doc := [] } none =
      ({ status := SyncStatus.connecting, authKey := none, encryptionKey := none,
         ws := false, peerConnections := [], dataChannels := [],
         authenticatedPeers := [], observers := [], pollTimer := false,
         announceTimer := false, doc := [] }, []) :=
  start_noop_when_active_C10 _ none (by decide)
